import Mathlib

/-! null_write.c: a SIGSEGV handler that reports and exits.

Shallow embedding of `src/null_write.c`.  The program has two functions:

* `on_segv(sig, si, ctx)`: prints one header line with `fprintf(stderr, ...)`,
  walks the stack with `backtrace(stack, 32)`, prints the frames with
  `backtrace_symbols_fd(stack, n, STDERR_FILENO)` and ends the process with
  `_exit(128 + sig)`.
* `main()`: fills a `struct sigaction` (`sa_sigaction = on_segv`,
  `sa_flags = SA_SIGINFO`, empty `sa_mask`), calls `sigaction(SIGSEGV, &sa, NULL)`
  without looking at its result, stores 42 through a null pointer, `return 0`.

Everything the C code obtains from the C library or the kernel is an explicit
input (`World`) or an explicit model of the library routine, named after it.
-/

namespace NullWrite

/-! ## Constants of `<signal.h>` and `<unistd.h>` (Linux values) -/

def SIGSEGV : Int := 11
def SA_SIGINFO : Nat := 0x4
def SA_NODEFER : Nat := 0x40000000
def SA_RESETHAND : Nat := 0x80000000
def STDERR_FILENO : Int := 2
def SIGPIPE : Int := 13
def SIGXFSZ : Int := 25
def EBADF : Int := 9
def EFBIG : Int := 27
def EPIPE : Int := 32

/-! ## Machine integers -/

/-- Value of a C `int` expression: two's-complement wrap to 32 bits. -/
def wrap_int (x : Int) : Int := (x + 2 ^ 31) % 2 ^ 32 - 2 ^ 31

/-- The low eight bits of the `_exit` argument are what the parent observes. -/
def wait_status (status : Int) : Int := status % 256

/-! ## Text formatting done by the C library -/

/-- One digit of a number in base up to 16, lower case. -/
def digitChar (d : Nat) : Char :=
  if d < 10 then Char.ofNat (48 + d) else Char.ofNat (87 + d)

/-- Digits of `n` in `base`, most significant first; `fuel` bounds the digit count. -/
def digitsAux (base : Nat) : Nat → Nat → List Char → List Char
  | 0, _, acc => acc
  | fuel + 1, n, acc =>
    if n / base = 0 then digitChar (n % base) :: acc
    else digitsAux base fuel (n / base) (digitChar (n % base) :: acc)

/-- Lower-case hexadecimal text of a 64-bit machine word (at most 16 digits). -/
def hex (n : Nat) : String := String.mk (digitsAux 16 16 (n % 2 ^ 64) [])

/-- Conversion `%d` of `printf`: decimal text of an `int`. -/
def fmt_d (x : Int) : String :=
  match x with
  | Int.ofNat n => String.mk (digitsAux 10 10 n [])
  | Int.negSucc n => "-" ++ String.mk (digitsAux 10 10 (n + 1) [])

/-- Conversion `%p` of `printf` as the GNU C library implements it (the source
asks for `_GNU_SOURCE` and uses glibc's `<execinfo.h>`): a null pointer is
printed as `(nil)`, every other pointer as `%#lx`. -/
def fmt_p (p : Nat) : String :=
  if p = 0 then "(nil)" else "0x" ++ hex p

/-! ## The handler's inputs -/

/-- The field of `siginfo_t` that `on_segv` reads: the faulting address, a
machine word (0 is the null pointer). -/
structure siginfo_t where
  si_addr : Nat
deriving DecidableEq, Repr

/-- What the C library and the kernel contribute to one run of the program. -/
structure World where
  /-- Return addresses the unwinder finds at the `backtrace` call, innermost
  (most recent) frame first; empty when the walk fails. -/
  frames : List Nat
  /-- Text `_dl_addr` yields for an address, `file(symbol+0xoff)` or empty. -/
  symbol : Nat → String
  /-- Whether the k-th write to standard error (counted from 0) is accepted;
  a write that is not accepted returns an error to its caller.  Writes that
  do not return at all are the subject of `WriteResult` below. -/
  write_ok : Nat → Bool
  /-- Result of the `sigaction` system call in `main`: 0, or -1 on refusal. -/
  sigaction_result : Int

/-! ## Library routines called by the handler -/

/-- A C array of `void *`: a slot is `none` until something is stored in it. -/
abbrev Buffer := List (Option Nat)

/-- Store to `buf[i]`; `none` when `i` is outside the array. -/
def storeSlot (buf : Buffer) (i : Nat) (v : Nat) : Option Buffer :=
  if i < buf.length then some (buf.set i (some v)) else none

/-- Load of `buf[i]`; `none` when `i` is outside the array or the slot was
never written. -/
def loadSlot (buf : Buffer) (i : Nat) : Option Nat :=
  match buf.get? i with
  | some (some a) => some a
  | _ => none

/-- Stores the given return addresses into consecutive slots from index `i`. -/
def backtraceFill : List Nat → Nat → Buffer → Option Buffer
  | [], _, buf => some buf
  | a :: rest, i, buf =>
    match storeSlot buf i a with
    | none => none
    | some buf1 => backtraceFill rest (i + 1) buf1

/-- Library routine `backtrace(buffer, size)`: stores the innermost `size`
return addresses in `buffer` and returns how many it stored. -/
def backtrace (w : World) (buffer : Buffer) (size : Nat) : Option (Buffer × Nat) :=
  match backtraceFill (w.frames.take size) 0 buffer with
  | none => none
  | some buf => some (buf, (w.frames.take size).length)

/-- The text `backtrace_symbols_fd` writes for one return address:
the symbol description, then `[0x<hex>]` and a newline. -/
def frameLine (w : World) (addr : Nat) : String :=
  w.symbol addr ++ "[0x" ++ hex addr ++ "]\n"

/-- Result of the frame emission: the lines handed to the descriptor, the
array indices that were read, and whether every read was a valid one. -/
structure Emitted where
  lines : List String
  reads : List Nat
  ok : Bool
deriving DecidableEq, Repr

/-- The loop `for (cnt = 0; cnt < size; ++cnt)` of `backtrace_symbols_fd`,
with `left` iterations to go. -/
def symbolsLoop (w : World) (array : Buffer) : Nat → Nat → Emitted
  | 0, _ => { lines := [], reads := [], ok := true }
  | left + 1, cnt =>
    match loadSlot array cnt with
    | none => { lines := [], reads := [cnt], ok := false }
    | some a =>
      let r := symbolsLoop w array left (cnt + 1)
      { lines := frameLine w a :: r.lines, reads := cnt :: r.reads, ok := r.ok }

/-- Library routine `backtrace_symbols_fd(array, size, fd)`: one write per
frame, `array[0]` first. -/
def backtrace_symbols_fd (w : World) (array : Buffer) (size : Nat) : Emitted :=
  symbolsLoop w array size 0

/-- The chunks standard error receives: the k-th write is dropped when the
descriptor refuses it. -/
def delivered (w : World) : Nat → List String → List String
  | _, [] => []
  | k, c :: cs =>
    if w.write_ok k then c :: delivered w (k + 1) cs else delivered w (k + 1) cs

/-! ## The handler -/

/-- A library call made by the program, with the arguments that matter. -/
inductive Call where
  | fprintf (stream_fd : Int) (text : String)
  | backtrace (size : Nat) (result : Option Nat)
  | backtrace_symbols_fd (size : Nat) (fd : Int)
  | _exit (status : Int)
  | sigemptyset
  | sigaction (signum : Int) (result : Int)
deriving DecidableEq, Repr

/-- How a handler invocation ends. -/
inductive Ending where
  | exited (status : Int)
  | returned
  | faulted
deriving DecidableEq, Repr

/-- Observable record of one handler invocation. -/
structure Handled where
  calls : List Call
  writes : List String
  reads : List Nat
  stderr : List String
  ending : Ending
deriving DecidableEq, Repr

/-- The format string of the handler's `fprintf`, filled in. -/
def header (sig : Int) (si : siginfo_t) : String :=
  "Peguei SIGSEGV (signal " ++ fmt_d sig ++ ") ao acessar " ++ fmt_p si.si_addr ++ "\n"

/-- Embedding of `static void on_segv(int sig, siginfo_t *si, void *ctx)`:
the handler's own control flow, each library call returning to it.  The
handler never looks at the result of a write, so `writes` does not depend on
the descriptor; `handler_on_sink` adds what the kernel does when a write
does not return. -/
def on_segv (w : World) (sig : Int) (si : siginfo_t) : Handled :=
  let line := header sig si
  let stack : Buffer := List.replicate 32 none
  match backtrace w stack 32 with
  | none =>
    { calls := [.fprintf STDERR_FILENO line, .backtrace 32 none],
      writes := [line], reads := [], stderr := delivered w 0 [line],
      ending := .faulted }
  | some (stack1, n) =>
    let e := backtrace_symbols_fd w stack1 n
    if e.ok then
      { calls := [.fprintf STDERR_FILENO line, .backtrace 32 (some n),
                  .backtrace_symbols_fd n STDERR_FILENO, ._exit (wrap_int (128 + sig))],
        writes := line :: e.lines, reads := e.reads,
        stderr := delivered w 0 (line :: e.lines),
        ending := .exited (wrap_int (128 + sig)) }
    else
      { calls := [.fprintf STDERR_FILENO line, .backtrace 32 (some n),
                  .backtrace_symbols_fd n STDERR_FILENO],
        writes := line :: e.lines, reads := e.reads,
        stderr := delivered w 0 (line :: e.lines),
        ending := .faulted }

/-- The frames the handler captures: the innermost 32 of those the unwinder finds. -/
def captured (w : World) : List Nat := w.frames.take 32

/-! ## Signal registration and delivery -/

/-- The fields of `struct sigaction` that `main` sets; `sa_sigaction = none`
is the null handler pointer of a zero-initialised struct (`SIG_DFL`). -/
structure sigaction_t where
  sa_sigaction : Option (World → Int → siginfo_t → Handled)
  sa_flags : Nat
  sa_mask : List Int

/-- The struct `main` builds: `sa = {0}`, then the three assignments
`sa_sigaction = on_segv`, `sa_flags = SA_SIGINFO`, `sigemptyset(&sa.sa_mask)`. -/
def main_sa : sigaction_t :=
  let sa : sigaction_t := { sa_sigaction := none, sa_flags := 0, sa_mask := [] }
  let sa := { sa with sa_sigaction := some on_segv }
  let sa := { sa with sa_flags := SA_SIGINFO }
  { sa with sa_mask := [] }

/-- Kernel state of the process as far as SIGSEGV goes: the registered action
(`none` is the default action) and the blocked-signal mask. -/
structure Proc where
  segv_action : Option sigaction_t
  blocked : List Int

/-- A fresh process: default action, nothing blocked. -/
def Proc.init : Proc := { segv_action := none, blocked := [] }

/-- System call `sigaction(SIGSEGV, act, NULL)`: on success the action is
recorded and 0 returned; on refusal nothing changes and -1 is returned. -/
def sys_sigaction (w : World) (p : Proc) (act : sigaction_t) : Proc × Int :=
  if w.sigaction_result = 0 then ({ p with segv_action := some act }, 0) else (p, -1)

/-- Signal mask in force while a handler for `sig` runs: the old mask, the
action's `sa_mask`, and `sig` itself unless `SA_NODEFER` is set. -/
def handler_mask (act : sigaction_t) (blocked : List Int) (sig : Int) : List Int :=
  blocked ++ act.sa_mask ++ (if act.sa_flags &&& SA_NODEFER = 0 then [sig] else [])

/-- How the whole process ends.  `looping` stands for control re-entering code
it already ran (a handler entered again from inside itself, or the faulting
store retried after a handler return); `hung` for a system call that never
returns. -/
inductive Outcome where
  | exited (code : Int)
  | killed (sig : Int)
  | returned (value : Int)
  | looping
  | hung
deriving DecidableEq, Repr

/-- Observable record of one run of the program. -/
structure Run where
  calls : List Call
  stores : List (Nat × Int)
  stderr : List String
  outcome : Outcome
deriving DecidableEq, Repr

/-- Delivery of a synchronous fault `sig`: default action (the process is
killed by the signal) when the signal is blocked or no handler is registered,
otherwise the handler runs under `handler_mask`. -/
def raise_fault (w : World) (p : Proc) (sig : Int) (si : siginfo_t) : Run :=
  let dead : Run := { calls := [], stores := [], stderr := [], outcome := .killed sig }
  if sig ∈ p.blocked then dead
  else
    match p.segv_action with
    | none => dead
    | some act =>
      match act.sa_sigaction with
      | none => dead
      | some handler =>
        let r := handler w sig si
        { calls := r.calls, stores := [], stderr := r.stderr,
          outcome :=
            match r.ending with
            | .exited status => .exited (wait_status status)
            | .returned => .looping
            | .faulted =>
              if sig ∈ handler_mask act p.blocked sig then .killed sig else .looping }

/-- A store `*addr = value` of `main`, followed by the rest of the function:
address 0 is never mapped, so the store raises SIGSEGV with `si_addr = 0`;
any other store completes and `rest` runs. -/
def store (w : World) (p : Proc) (addr : Nat) (value : Int) (rest : Run) : Run :=
  if addr = 0 then
    let r := raise_fault w p SIGSEGV { si_addr := addr }
    { r with stores := [(addr, value)] }
  else { rest with stores := (addr, value) :: rest.stores }

/-- Embedding of `int main(void)`. -/
def main (w : World) : Run :=
  let reg := sys_sigaction w Proc.init main_sa
  let p : Nat := 0
  let r := store w reg.1 p 42 { calls := [], stores := [], stderr := [], outcome := .returned 0 }
  { r with calls := [.sigemptyset, .sigaction SIGSEGV reg.2] ++ r.calls }

/-! ## Writes that do not return -/

/-- What the kernel answers to one `write` on the descriptor: all bytes
taken, an error number, or no answer at all (the write blocks for good). -/
inductive WriteResult where
  | accepted
  | error (errno : Int)
  | blocks
deriving DecidableEq, Repr

/-- The signal the kernel raises in the writer together with an error:
SIGPIPE with EPIPE, SIGXFSZ with EFBIG, none with any other error. -/
def write_signal (errno : Int) : Option Int :=
  if errno = EPIPE then some SIGPIPE
  else if errno = EFBIG then some SIGXFSZ
  else none

/-- How one write ends for the writer. -/
inductive WriteEnd where
  | returned (taken : Bool)
  | killed (sig : Int)
  | hangs
deriving DecidableEq, Repr

/-- One write under the signal mask `mask`.  The program leaves SIGPIPE and
SIGXFSZ at their default action (`main` registers SIGSEGV only), so a signal
raised by the write kills the process unless it is blocked, in which case it
stays pending and the write returns its error. -/
def write_end (mask : List Int) : WriteResult → WriteEnd
  | .accepted => .returned true
  | .blocks => .hangs
  | .error errno =>
    match write_signal errno with
    | none => .returned false
    | some s => if s ∈ mask then .returned false else .killed s

/-- Whether a write returns to its caller. -/
def write_returns (mask : List Int) (r : WriteResult) : Bool :=
  match write_end mask r with
  | .returned _ => true
  | _ => false

/-- The writes of a handler, in order from the k-th, against the answers of
the descriptor: the chunks that arrive, and how the process ended inside a
write if one did not return. -/
def sink_scan (mask : List Int) (answers : Nat → WriteResult) :
    Nat → List String → List String × Option Outcome
  | _, [] => ([], none)
  | k, c :: cs =>
    match write_end mask (answers k) with
    | .returned taken =>
      let r := sink_scan mask answers (k + 1) cs
      (if taken then c :: r.1 else r.1, r.2)
    | .killed s => ([], some (.killed s))
    | .hangs => ([], some .hung)

/-- What standard error received and how the process ended. -/
structure Delivery where
  stderr : List String
  outcome : Outcome
deriving DecidableEq, Repr

/-- The handler `main` registered, run by the kernel for signal `sig` in a
fresh process, its writes answered by `answers`: the process ends inside the
first write that does not return, otherwise as the handler itself ends. -/
def handler_on_sink (w : World) (answers : Nat → WriteResult) (sig : Int) (si : siginfo_t) :
    Delivery :=
  let mask := handler_mask main_sa Proc.init.blocked sig
  let r := sink_scan mask answers 0 (on_segv w sig si).writes
  match r.2 with
  | some o => { stderr := r.1, outcome := o }
  | none =>
    { stderr := r.1,
      outcome := (raise_fault w { segv_action := some main_sa, blocked := Proc.init.blocked }
                    sig si).outcome }

/-! ## The report as lines -/

/-- The byte stream a descriptor receives from a sequence of writes. -/
def stream (chunks : List String) : List Char :=
  chunks.foldr (fun c acc => c.data ++ acc) []

/-- The lines of a text: the pieces between newline characters. -/
def linesOf : List Char → List (List Char)
  | [] => []
  | c :: cs =>
    if c = '\n' then [] :: linesOf cs
    else
      match linesOf cs with
      | [] => [[c]]
      | l :: ls => (c :: l) :: ls

/-! ## The handler life cycle as a state machine -/

/-- States of the life cycle. -/
inductive Phase where
  | Uninstalled
  | Installed
  | Triggered
  | Terminated
deriving DecidableEq, Repr

/-- State of the machine: the phase, the blocked-signal mask, whether the
registered action is still armed, and how often the handler was entered. -/
structure Machine where
  phase : Phase
  blocked : List Int
  armed : Bool
  entries : Nat
deriving DecidableEq, Repr

/-- The machine before `main` runs. -/
def Machine.init : Machine :=
  { phase := .Uninstalled, blocked := [], armed := false, entries := 0 }

/-- What can happen to the process: `main` registers the action, a SIGSEGV is
raised (in `main` or inside the handler), the handler runs to its end. -/
inductive Event where
  | register
  | fault
  | handler_done
deriving DecidableEq, Repr

/-- Entering the handler for SIGSEGV under action `act`. -/
def enter (act : sigaction_t) (m : Machine) : Machine :=
  { phase := .Triggered,
    blocked := handler_mask act m.blocked SIGSEGV,
    armed := m.armed && (act.sa_flags &&& SA_RESETHAND == 0),
    entries := m.entries + 1 }

/-- A SIGSEGV raised in state `m`: the handler is entered when it is armed and
the signal is not blocked, otherwise the kernel kills the process. -/
def on_fault (act : sigaction_t) (m : Machine) : Option Machine :=
  match m.phase with
  | .Terminated => none
  | .Uninstalled => some { m with phase := .Terminated }
  | _ =>
    if SIGSEGV ∈ m.blocked ∨ m.armed = false then some { m with phase := .Terminated }
    else some (enter act m)

/-- One step of the life cycle for the action `act`; `none` when the event
cannot happen in state `m`. -/
def step (w : World) (si : siginfo_t) (act : sigaction_t) (m : Machine) :
    Event → Option Machine
  | .register =>
    if m.phase = .Uninstalled then
      if (sys_sigaction w Proc.init act).2 = 0 then
        some { m with phase := .Installed, armed := true }
      else some m
    else none
  | .fault => on_fault act m
  | .handler_done =>
    if m.phase = .Triggered then
      match act.sa_sigaction with
      | none => none
      | some handler =>
        match (handler w SIGSEGV si).ending with
        | .exited _ => some { m with phase := .Terminated }
        | .returned => some { m with phase := .Installed }
        | .faulted => on_fault act m
    else none

/-- Runs a sequence of events; `none` when some event cannot happen. -/
def run (w : World) (si : siginfo_t) (act : sigaction_t) : Machine → List Event → Option Machine
  | m, [] => some m
  | m, e :: es =>
    match step w si act m e with
    | none => none
    | some m1 => run w si act m1 es

/-- Invariant of the life cycle: the handler has not been entered before it is
triggered, has been entered exactly once while it runs, and runs with SIGSEGV
blocked. -/
def Inv (m : Machine) : Prop :=
  match m.phase with
  | .Uninstalled => m.entries = 0
  | .Installed => m.entries = 0
  | .Triggered => m.entries = 1 ∧ SIGSEGV ∈ m.blocked
  | .Terminated => m.entries ≤ 1

/-! ## Async-signal-safety of the library calls -/

/-- Safety marks of a library routine: whether it is documented as safe to
call from a signal handler, whether it can allocate from the heap, whether it
takes a lock. -/
structure Safety where
  as_safe : Bool
  heap : Bool
  lock : Bool
deriving DecidableEq, Repr

/-- Safety marks following the POSIX list of async-signal-safe functions and
the safety annotations of the GNU C library manual: `_exit`, `sigaction` and
`sigemptyset` are on the POSIX list; `fprintf` is AS-Unsafe (heap, stream
lock); `backtrace` is AS-Unsafe (init, heap, dlopen, lock);
`backtrace_symbols_fd` is marked AS-Safe and takes the loader lock. -/
def safety : Call → Safety
  | .fprintf _ _ => { as_safe := false, heap := true, lock := true }
  | .backtrace _ _ => { as_safe := false, heap := true, lock := true }
  | .backtrace_symbols_fd _ _ => { as_safe := true, heap := false, lock := true }
  | ._exit _ => { as_safe := true, heap := false, lock := false }
  | .sigemptyset => { as_safe := true, heap := false, lock := false }
  | .sigaction _ _ => { as_safe := true, heap := false, lock := false }

/-- A call is fit for a signal handler when it is documented safe, cannot
allocate and cannot take a lock. -/
def handler_safe (c : Call) : Bool :=
  (safety c).as_safe && !(safety c).heap && !(safety c).lock

/-! ## Sample worlds -/

/-- A run in which registration succeeds, every write is accepted and the
unwinder finds three frames. -/
def sampleWorld : World :=
  { frames := [0x401196, 0x7f0000042520, 0x4011f3],
    symbol := fun _ => "./null_write",
    write_ok := fun _ => true,
    sigaction_result := 0 }

/-- A run in which the stack walk finds nothing. -/
def noFramesWorld : World := { sampleWorld with frames := [] }

/-- A run in which the kernel refuses the registration. -/
def refusedWorld : World := { sampleWorld with sigaction_result := -1 }

/-- A run in which the unwinder finds forty frames. -/
def deepWorld : World := { sampleWorld with frames := List.range 40 }

/-- A run of the program started under a path that contains a newline, with
one frame found. -/
def newlinePathWorld : World :=
  { sampleWorld with frames := [0x401196], symbol := fun _ => "./null\nwrite" }

/-- Standard error is a pipe whose reader is gone: every write gets EPIPE. -/
def brokenPipeSink : Nat → WriteResult := fun _ => .error EPIPE

/-- Standard error is a file at the size limit: every write gets EFBIG. -/
def fullFileSink : Nat → WriteResult := fun _ => .error EFBIG

/-- Standard error never takes the bytes: every write blocks. -/
def stalledSink : Nat → WriteResult := fun _ => .blocks

/-- Standard error is closed: every write gets EBADF. -/
def closedSink : Nat → WriteResult := fun _ => .error EBADF

/-- Standard error takes the header and is closed afterwards. -/
def headerOnlySink : Nat → WriteResult := fun k => if k = 0 then .accepted else .error EBADF

end NullWrite

namespace NullWrite

set_option maxRecDepth 8192

/-! ## Facts about the stack buffer -/

theorem storeSlot_append (pre : Buffer) (k : Nat) (a : Nat) :
    storeSlot (pre ++ List.replicate (k + 1) none) pre.length a
      = some ((pre ++ [some a]) ++ List.replicate k none) := by
  unfold storeSlot
  have hlen : pre.length < (pre ++ List.replicate (k + 1) none).length := by
    simp
  rw [if_pos hlen]
  congr 1
  induction pre with
  | nil => simp [List.replicate_succ]
  | cons x xs ih => simpa using ih (by simp)

theorem backtraceFill_fresh (fs : List Nat) :
    ∀ (pre : Buffer) (k : Nat), fs.length ≤ k →
      backtraceFill fs pre.length (pre ++ List.replicate k none)
        = some (pre ++ fs.map some ++ List.replicate (k - fs.length) none) := by
  induction fs with
  | nil => intro pre k _; simp [backtraceFill]
  | cons a rest ih =>
    intro pre k hk
    obtain ⟨k1, rfl⟩ : ∃ k1, k = k1 + 1 := ⟨k - 1, by simp at hk; omega⟩
    have hrest : rest.length ≤ k1 := by simp at hk; omega
    have h := ih (pre ++ [some a]) k1 hrest
    simp only [List.length_append, List.length_singleton] at h
    simp only [backtraceFill, storeSlot_append, h]
    simp

theorem loadSlot_mid (pre : Buffer) (a : Nat) (post : Buffer) :
    loadSlot (pre ++ some a :: post) pre.length = some a := by
  have h : (pre ++ some a :: post).get? pre.length = some (some a) := by
    induction pre with
    | nil => rfl
    | cons x xs ih => simpa using ih
  simp only [loadSlot, h]

theorem symbolsLoop_filled (w : World) (fs : List Nat) :
    ∀ (pre post : Buffer),
      symbolsLoop w (pre ++ fs.map some ++ post) fs.length pre.length
        = { lines := fs.map (frameLine w),
            reads := List.range' pre.length fs.length,
            ok := true } := by
  induction fs with
  | nil => intro pre post; simp [symbolsLoop]
  | cons a rest ih =>
    intro pre post
    have h := ih (pre ++ [some a]) post
    simp only [List.length_append, List.length_singleton, List.append_assoc,
      List.singleton_append, List.cons_append, List.nil_append] at h
    simp only [List.map_cons, List.length_cons, symbolsLoop, List.append_assoc,
      List.cons_append, loadSlot_mid, h, List.range'_succ]

theorem captured_length_le (w : World) : (captured w).length ≤ 32 := by
  simp [captured]

theorem backtrace_stack (w : World) :
    backtrace w (List.replicate 32 none) 32
      = some ((captured w).map some ++ List.replicate (32 - (captured w).length) none,
              (captured w).length) := by
  have h := backtraceFill_fresh (captured w) [] 32 (captured_length_le w)
  simp only [List.length_nil, List.nil_append] at h
  simp only [backtrace, captured] at h ⊢
  rw [h]

/-- Closed form of one handler invocation. -/
theorem on_segv_eq (w : World) (sig : Int) (si : siginfo_t) :
    on_segv w sig si
      = { calls := [.fprintf STDERR_FILENO (header sig si),
                    .backtrace 32 (some (captured w).length),
                    .backtrace_symbols_fd (captured w).length STDERR_FILENO,
                    ._exit (wrap_int (128 + sig))],
          writes := header sig si :: (captured w).map (frameLine w),
          reads := List.range' 0 (captured w).length,
          stderr := delivered w 0 (header sig si :: (captured w).map (frameLine w)),
          ending := .exited (wrap_int (128 + sig)) } := by
  have hloop := symbolsLoop_filled w (captured w) []
    (List.replicate (32 - (captured w).length) none)
  simp only [List.length_nil, List.nil_append] at hloop
  simp only [on_segv, backtrace_stack, backtrace_symbols_fd, hloop]
  simp

theorem delivered_all (w : World) (h : ∀ k, w.write_ok k = true) :
    ∀ (cs : List String) (k : Nat), delivered w k cs = cs := by
  intro cs
  induction cs with
  | nil => intro k; rfl
  | cons c cs ih => intro k; simp [delivered, h, ih (k + 1)]

theorem wrap_int_small (sig : Int) (h0 : 0 ≤ sig) (h1 : sig < 128) :
    wrap_int (128 + sig) = 128 + sig := by
  unfold wrap_int
  norm_num
  omega

theorem wait_status_small (sig : Int) (h0 : 0 ≤ sig) (h1 : sig < 128) :
    wait_status (128 + sig) = 128 + sig := by
  unfold wait_status
  omega

theorem raise_fault_main_sa (w : World) (sig : Int) (si : siginfo_t) :
    (raise_fault w { segv_action := some main_sa, blocked := Proc.init.blocked } sig si).outcome
      = .exited (wait_status (wrap_int (128 + sig))) := by
  simp [raise_fault, main_sa, on_segv_eq, Proc.init]

theorem write_end_taken (mask : List Int) (r : WriteResult) (taken : Bool)
    (h : write_end mask r = .returned taken) : taken = decide (r = .accepted) := by
  cases r with
  | accepted => simpa [write_end] using h.symm
  | blocks => simp [write_end] at h
  | error errno =>
    simp only [write_end] at h
    split at h
    · simpa using h.symm
    · split_ifs at h
      simpa using h.symm

theorem sink_scan_returns (w : World) (mask : List Int) (answers : Nat → WriteResult)
    (hret : ∀ k, write_returns mask (answers k) = true) :
    ∀ (cs : List String) (k : Nat),
      sink_scan mask answers k cs
        = (delivered { w with write_ok := fun j => decide (answers j = .accepted) } k cs,
           none) := by
  intro cs
  induction cs with
  | nil => intro k; rfl
  | cons c cs ih =>
    intro k
    have hk := hret k
    unfold write_returns at hk
    cases he : write_end mask (answers k) with
    | returned taken =>
      have ht := write_end_taken mask (answers k) taken he
      simp only [sink_scan, delivered, he, ih (k + 1), ht]
    | killed s => simp [he] at hk
    | hangs => simp [he] at hk

/-! ## Facts about lines -/

theorem digitChar_ne_newline (d : Nat) (hd : d < 16) : digitChar d ≠ '\n' := by
  interval_cases d <;> decide

theorem digitsAux_no_newline (base : Nat) (hb : 0 < base) (hb16 : base ≤ 16) :
    ∀ (fuel n : Nat) (acc : List Char), '\n' ∉ acc → '\n' ∉ digitsAux base fuel n acc := by
  intro fuel
  induction fuel with
  | zero => intro n acc h; simpa [digitsAux] using h
  | succ fuel ih =>
    intro n acc h
    have hd : digitChar (n % base) ≠ '\n' :=
      digitChar_ne_newline _ (lt_of_lt_of_le (Nat.mod_lt n hb) hb16)
    have hacc : '\n' ∉ digitChar (n % base) :: acc := by
      simp only [List.mem_cons, not_or]
      exact ⟨fun e => hd e.symm, h⟩
    simp only [digitsAux]
    split_ifs
    · exact hacc
    · exact ih _ _ hacc

theorem hex_no_newline (n : Nat) : '\n' ∉ (hex n).data :=
  digitsAux_no_newline 16 (by decide) (by decide) 16 _ [] (by simp)

theorem fmt_d_no_newline (x : Int) : '\n' ∉ (fmt_d x).data := by
  cases x with
  | ofNat n => exact digitsAux_no_newline 10 (by decide) (by decide) 10 _ [] (by simp)
  | negSucc n =>
    have h := digitsAux_no_newline 10 (by decide) (by decide) 10 (n + 1) [] (by simp)
    simp only [fmt_d, String.data_append, List.mem_append, not_or]
    exact ⟨by decide, h⟩

theorem fmt_p_no_newline (p : Nat) : '\n' ∉ (fmt_p p).data := by
  unfold fmt_p
  split_ifs
  · decide
  · simp only [String.data_append, List.mem_append, not_or]
    exact ⟨by decide, hex_no_newline p⟩

theorem linesOf_line (body : List Char) (h : '\n' ∉ body) (rest : List Char) :
    linesOf (body ++ '\n' :: rest) = body :: linesOf rest := by
  induction body with
  | nil => simp [linesOf]
  | cons c cs ih =>
    simp only [List.mem_cons, not_or] at h
    have hc : c ≠ '\n' := fun e => h.1 e.symm
    simp [linesOf, hc, ih h.2]

theorem linesOf_chunks (text : Nat → String) (h : ∀ a, '\n' ∉ (text a).data) :
    ∀ (fs : List Nat),
      linesOf (stream (fs.map (fun a => text a ++ "\n"))) = fs.map (fun a => (text a).data) := by
  intro fs
  induction fs with
  | nil => rfl
  | cons a rest ih =>
    have hs : stream ((a :: rest).map (fun a => text a ++ "\n"))
        = (text a).data ++ '\n' :: stream (rest.map (fun a => text a ++ "\n")) := by
      simp [stream, String.data_append]
    rw [hs, linesOf_line _ (h a), ih]
    rfl

theorem frameLine_eq (w : World) (a : Nat) :
    frameLine w a = w.symbol a ++ "[0x" ++ hex a ++ "]" ++ "\n" := by
  apply String.ext
  simp [frameLine, String.data_append]

/-! ## Exit status -/

/-- C5, as the spec words it, fails: when standard error is a pipe whose
reader is gone, the header write raises SIGPIPE and the process is killed by
signal 13 inside `fprintf`, before `_exit`; with a file at its size limit it
is killed by SIGXFSZ; with a write that blocks the handler never finishes.  In
none of these runs does the process exit with status 139, and nothing is
written. -/
theorem failed_write_can_end_the_process :
    handler_on_sink sampleWorld brokenPipeSink 11 { si_addr := 0 }
        = { stderr := [], outcome := .killed SIGPIPE }
      ∧ handler_on_sink sampleWorld fullFileSink 11 { si_addr := 0 }
        = { stderr := [], outcome := .killed SIGXFSZ }
      ∧ handler_on_sink sampleWorld stalledSink 11 { si_addr := 0 }
        = { stderr := [], outcome := .hung }
      ∧ (handler_on_sink sampleWorld brokenPipeSink 11 { si_addr := 0 }).outcome
          ≠ .exited 139 := by
  decide

/-- C5 amended: for every table of answers in which each write returns to the
handler (the bytes are taken, or the write fails with an error such as EBADF
on a closed descriptor), the process ends with exit status `128 + sig`
whatever the answers are, and standard error holds exactly the chunks whose
write was accepted. -/
theorem exit_status_when_writes_return (w : World) (answers : Nat → WriteResult)
    (sig : Int) (si : siginfo_t) (h0 : 0 ≤ sig) (h1 : sig < 128)
    (hret : ∀ k, write_returns (handler_mask main_sa Proc.init.blocked sig) (answers k) = true) :
    (handler_on_sink w answers sig si).outcome = .exited (128 + sig)
      ∧ (handler_on_sink w answers sig si).stderr
          = delivered { w with write_ok := fun k => decide (answers k = .accepted) } 0
              (on_segv w sig si).writes := by
  have hw := wrap_int_small sig h0 h1
  have hs := wait_status_small sig h0 h1
  have hscan := sink_scan_returns w _ answers hret (on_segv w sig si).writes 0
  have hout : (handler_on_sink w answers sig si).outcome = .exited (128 + sig) := by
    simp only [handler_on_sink, hscan, raise_fault_main_sa, hw, hs]
  have herr : (handler_on_sink w answers sig si).stderr
      = delivered { w with write_ok := fun k => decide (answers k = .accepted) } 0
          (on_segv w sig si).writes := by
    simp only [handler_on_sink, hscan]
  exact ⟨hout, herr⟩

/-- C5 amended, on a closed descriptor and on one closed after the header:
exit status 139 both times. -/
theorem closed_descriptor_exits_139 :
    (0 : Int) ≤ 11 ∧ (11 : Int) < 128
      ∧ (handler_on_sink sampleWorld closedSink 11 { si_addr := 0 }).outcome = .exited 139
      ∧ (handler_on_sink sampleWorld closedSink 11 { si_addr := 0 }).stderr = []
      ∧ (handler_on_sink sampleWorld headerOnlySink 11 { si_addr := 0 }).outcome
          = .exited 139 :=
  ⟨by decide, by decide,
   (exit_status_when_writes_return sampleWorld closedSink 11 { si_addr := 0 } (by decide)
      (by decide) (fun _ => rfl)).1,
   by decide,
   (exit_status_when_writes_return sampleWorld headerOnlySink 11 { si_addr := 0 } (by decide)
      (by decide) (fun k => by unfold headerOnlySink; split_ifs <;> rfl)).1⟩

/-! ## Frames -/

/-- C6: when `backtrace` returns 0, the handler has written the header line and
nothing else, reads no slot of the stack buffer, calls
`backtrace_symbols_fd` with size 0 and ends in `_exit(128 + sig)`. -/
theorem zero_frames_still_reports (w : World) (sig : Int) (si : siginfo_t)
    (h0 : 0 ≤ sig) (h1 : sig < 128)
    (hz : Call.backtrace 32 (some 0) ∈ (on_segv w sig si).calls) :
    (on_segv w sig si).writes = [header sig si]
      ∧ (on_segv w sig si).calls
          = [.fprintf STDERR_FILENO (header sig si), .backtrace 32 (some 0),
             .backtrace_symbols_fd 0 STDERR_FILENO, ._exit (128 + sig)]
      ∧ (on_segv w sig si).reads = []
      ∧ (on_segv w sig si).ending = .exited (128 + sig)
      ∧ (on_segv w sig si).ending ≠ .faulted := by
  have hw := wrap_int_small sig h0 h1
  rw [on_segv_eq] at hz ⊢
  have hlen : (captured w).length = 0 := by
    simp at hz
    simpa using hz.symm
  have hnil : captured w = [] := List.length_eq_zero.mp hlen
  simp [hnil, hw]

/-- C6 on a walk that finds nothing: header only, exit status 139. -/
theorem zero_frames_example :
    (0 : Int) ≤ 11 ∧ (11 : Int) < 128
      ∧ Call.backtrace 32 (some 0) ∈ (on_segv noFramesWorld 11 { si_addr := 0 }).calls
      ∧ (on_segv noFramesWorld 11 { si_addr := 0 }).writes
          = ["Peguei SIGSEGV (signal 11) ao acessar (nil)\n"]
      ∧ (on_segv noFramesWorld 11 { si_addr := 0 }).ending = .exited 139 :=
  ⟨by decide, by decide, by decide,
   (zero_frames_still_reports noFramesWorld 11 { si_addr := 0 } (by decide) (by decide)
      (by decide)).1,
   (zero_frames_still_reports noFramesWorld 11 { si_addr := 0 } (by decide) (by decide)
      (by decide)).2.2.2.1⟩

/-- C9, as the spec words it, fails on the words one per line: when the
program runs under a path that contains a newline, the text
`backtrace_symbols_fd` writes for the single captured frame holds that newline,
so the one frame takes two lines after the header. -/
theorem newline_in_path_splits_frame :
    Call.backtrace 32 (some 1) ∈ (on_segv newlinePathWorld 11 { si_addr := 0 }).calls
      ∧ (on_segv newlinePathWorld 11 { si_addr := 0 }).writes
          = ["Peguei SIGSEGV (signal 11) ao acessar (nil)\n", "./null\nwrite[0x401196]\n"]
      ∧ linesOf (stream (on_segv newlinePathWorld 11 { si_addr := 0 }).writes)
          = ["Peguei SIGSEGV (signal 11) ao acessar (nil)".data, "./null".data,
             "write[0x401196]".data] := by
  decide

/-- C9 amended: for every stack depth the count `backtrace` returns is
`min depth 32`, at most 32; the handler writes the header and then one chunk
per captured frame, in capture order (innermost first), the chunk of a frame
being its symbol text, `[0x`, the address in hexadecimal, `]` and a newline;
the slots read are exactly 0, ..., n-1, each below `n` and below 32; no read
faults; when the descriptor accepts every write these chunks are what
standard error receives; and when no symbol text contains a newline, the
report read as lines is the header followed by exactly one line per frame. -/
theorem captures_at_most_32_frames (w : World) (sig : Int) (si : siginfo_t) :
    (∀ n, Call.backtrace 32 (some n) ∈ (on_segv w sig si).calls →
        n = min w.frames.length 32 ∧ n ≤ 32)
      ∧ Call.backtrace 32 (some (min w.frames.length 32)) ∈ (on_segv w sig si).calls
      ∧ (on_segv w sig si).writes
          = ("Peguei SIGSEGV (signal " ++ fmt_d sig ++ ") ao acessar " ++ fmt_p si.si_addr
              ++ "\n")
            :: (w.frames.take (min w.frames.length 32)).map
                (fun a => w.symbol a ++ "[0x" ++ hex a ++ "]" ++ "\n")
      ∧ (on_segv w sig si).reads = List.range (min w.frames.length 32)
      ∧ (∀ i ∈ (on_segv w sig si).reads, i < min w.frames.length 32 ∧ i < 32)
      ∧ (on_segv w sig si).ending ≠ .faulted
      ∧ ((∀ k, w.write_ok k = true) →
          (on_segv w sig si).stderr = (on_segv w sig si).writes)
      ∧ ((∀ a, '\n' ∉ (w.symbol a).data) →
          linesOf (stream (on_segv w sig si).writes)
            = ("Peguei SIGSEGV (signal " ++ fmt_d sig ++ ") ao acessar "
                ++ fmt_p si.si_addr).data
              :: (w.frames.take (min w.frames.length 32)).map
                  (fun a => (w.symbol a ++ "[0x" ++ hex a ++ "]").data)) := by
  have hlen : (captured w).length = min w.frames.length 32 := by
    simp [captured, Nat.min_comm]
  have htake : w.frames.take (min w.frames.length 32) = captured w := by
    unfold captured
    rcases le_total w.frames.length 32 with h | h
    · rw [Nat.min_eq_left h, List.take_of_length_le (le_refl _), List.take_of_length_le h]
    · rw [Nat.min_eq_right h]
  have hwrites : header sig si :: (captured w).map (frameLine w)
      = ("Peguei SIGSEGV (signal " ++ fmt_d sig ++ ") ao acessar " ++ fmt_p si.si_addr ++ "\n")
        :: (captured w).map (fun a => w.symbol a ++ "[0x" ++ hex a ++ "]" ++ "\n") := by
    congr 1
    exact List.map_congr_left (fun a _ => frameLine_eq w a)
  rw [on_segv_eq, htake, ← hlen]
  refine ⟨?_, by simp, hwrites, ?_, ?_, by simp, ?_, ?_⟩
  · intro n hn
    have hn2 : n = (captured w).length := by simpa using hn
    exact ⟨hn2, hn2 ▸ captured_length_le w⟩
  · simp [List.range_eq_range']
  · intro i hi
    have hi2 : i < (captured w).length := by
      simpa [List.mem_range'_1] using hi
    exact ⟨hi2, lt_of_lt_of_le hi2 (captured_length_le w)⟩
  · intro h
    exact delivered_all w h _ 0
  · intro hsym
    have hhead : '\n' ∉ ("Peguei SIGSEGV (signal " ++ fmt_d sig ++ ") ao acessar "
        ++ fmt_p si.si_addr).data := by
      simp only [String.data_append, List.mem_append, not_or]
      exact ⟨⟨⟨by decide, fmt_d_no_newline sig⟩, by decide⟩, fmt_p_no_newline si.si_addr⟩
    have hbody : ∀ a, '\n' ∉ (w.symbol a ++ "[0x" ++ hex a ++ "]").data := by
      intro a
      simp only [String.data_append, List.mem_append, not_or]
      exact ⟨⟨⟨hsym a, by decide⟩, hex_no_newline a⟩, by decide⟩
    have hrest := linesOf_chunks (fun a => w.symbol a ++ "[0x" ++ hex a ++ "]") hbody (captured w)
    show linesOf (stream (header sig si :: (captured w).map (frameLine w))) = _
    rw [hwrites]
    have hs : stream (("Peguei SIGSEGV (signal " ++ fmt_d sig ++ ") ao acessar "
          ++ fmt_p si.si_addr ++ "\n")
          :: (captured w).map (fun a => w.symbol a ++ "[0x" ++ hex a ++ "]" ++ "\n"))
        = ("Peguei SIGSEGV (signal " ++ fmt_d sig ++ ") ao acessar " ++ fmt_p si.si_addr).data
          ++ '\n' :: stream ((captured w).map
              (fun a => w.symbol a ++ "[0x" ++ hex a ++ "]" ++ "\n")) := by
      simp [stream, String.data_append]
    rw [hs, linesOf_line _ hhead, hrest]

/-- C9 amended, on two runs: with three frames found the report is the header
and three lines, spelled out; with forty frames found the count is 32, slots
0 to 31 are read and 33 chunks are written. -/
theorem frames_one_per_line_example :
    (on_segv sampleWorld 11 { si_addr := 0 }).writes
        = ["Peguei SIGSEGV (signal 11) ao acessar (nil)\n", "./null_write[0x401196]\n",
           "./null_write[0x7f0000042520]\n", "./null_write[0x4011f3]\n"]
      ∧ linesOf (stream (on_segv sampleWorld 11 { si_addr := 0 }).writes)
        = ["Peguei SIGSEGV (signal 11) ao acessar (nil)".data, "./null_write[0x401196]".data,
           "./null_write[0x7f0000042520]".data, "./null_write[0x4011f3]".data]
      ∧ Call.backtrace 32 (some 32) ∈ (on_segv deepWorld 11 { si_addr := 0 }).calls
      ∧ (on_segv deepWorld 11 { si_addr := 0 }).reads = List.range 32 :=
  ⟨(captures_at_most_32_frames sampleWorld 11 { si_addr := 0 }).2.2.1.trans (by decide),
   ((captures_at_most_32_frames sampleWorld 11 { si_addr := 0 }).2.2.2.2.2.2.2
      (fun _ => (by decide : '\n' ∉ "./null_write".data))).trans (by decide),
   (captures_at_most_32_frames deepWorld 11 { si_addr := 0 }).2.1,
   (captures_at_most_32_frames deepWorld 11 { si_addr := 0 }).2.2.2.1⟩

/-! ## Text of the report -/

/-- C2, as the spec words it, fails: for signal 11 and a null faulting address
the first line the handler writes is the Portuguese text below, which does not
begin with `caught fault: signal=11 address=`. -/
theorem first_line_is_not_caught_fault :
    (on_segv sampleWorld 11 { si_addr := 0 }).writes.head?
        = some "Peguei SIGSEGV (signal 11) ao acessar (nil)\n"
      ∧ ¬ ("caught fault: signal=11 address=".data
            <+: "Peguei SIGSEGV (signal 11) ao acessar (nil)\n".data) := by
  decide

/-- C2 amended: for every signal number and every faulting address, the first
line the handler writes is `Peguei SIGSEGV (signal <sig in decimal>) ao
acessar <address as %p prints it>` and a newline, handed to descriptor 2 by
the first call the handler makes. -/
theorem first_line_text (w : World) (sig : Int) (si : siginfo_t) :
    (on_segv w sig si).writes.head?
        = some ("Peguei SIGSEGV (signal " ++ fmt_d sig ++ ") ao acessar "
                  ++ fmt_p si.si_addr ++ "\n")
      ∧ (on_segv w sig si).calls.head?
          = some (.fprintf 2 ("Peguei SIGSEGV (signal " ++ fmt_d sig ++ ") ao acessar "
                  ++ fmt_p si.si_addr ++ "\n")) := by
  rw [on_segv_eq]
  exact ⟨rfl, rfl⟩

/-- C3, as the spec words it, fails: for a null faulting address the address
field of the header is `(nil)`, and the text `0x0` occurs nowhere in the
header. -/
theorem null_address_is_not_0x0 :
    (on_segv sampleWorld 11 { si_addr := 0 }).writes.head?
        = some ("Peguei SIGSEGV (signal 11) ao acessar " ++ "(nil)" ++ "\n")
      ∧ fmt_p 0 ≠ "0x0"
      ∧ ¬ ("0x0".data <:+: (header 11 { si_addr := 0 }).data) := by
  decide

/-- C3 amended: for a null faulting address and every signal number the
address field of the header line is the text `(nil)`. -/
theorem null_address_field (w : World) (sig : Int) :
    fmt_p 0 = "(nil)"
      ∧ (on_segv w sig { si_addr := 0 }).writes.head?
          = some ("Peguei SIGSEGV (signal " ++ fmt_d sig ++ ") ao acessar " ++ "(nil)" ++ "\n") := by
  rw [on_segv_eq]
  exact ⟨rfl, rfl⟩

/-! ## The whole program -/

/-- C7, as the spec words it, fails: when the kernel refuses the registration,
`main` still performs the store through the null pointer; the process is
killed by SIGSEGV and nothing is written; no error value is produced. -/
theorem refused_registration_is_ignored :
    refusedWorld.sigaction_result = -1
      ∧ (main refusedWorld).calls = [.sigemptyset, .sigaction 11 (-1)]
      ∧ (main refusedWorld).stores = [(0, 42)]
      ∧ (main refusedWorld).stderr = []
      ∧ (main refusedWorld).outcome = .killed 11 := by
  decide

/-- C7 amended: whenever `sigaction` reports a refusal, `main` goes on to the
store through the null pointer; the fault takes the default action (the
process is killed by SIGSEGV), the handler does not run and nothing is
written to standard error. -/
theorem main_ignores_sigaction_refusal (w : World) (h : w.sigaction_result ≠ 0) :
    main w = { calls := [.sigemptyset, .sigaction SIGSEGV (-1)],
               stores := [(0, 42)],
               stderr := [],
               outcome := .killed SIGSEGV } := by
  simp [main, store, sys_sigaction, h, raise_fault, Proc.init]

/-- C7 amended, on a run where the registration is refused. -/
theorem main_refused_run :
    refusedWorld.sigaction_result ≠ 0
      ∧ main refusedWorld = { calls := [.sigemptyset, .sigaction SIGSEGV (-1)],
                              stores := [(0, 42)],
                              stderr := [],
                              outcome := .killed SIGSEGV } :=
  ⟨by decide, main_ignores_sigaction_refusal refusedWorld (by decide)⟩

/-! ## Async-signal-safety -/

/-- C8 fails on the code: in every invocation the first call of the handler is
`fprintf`, which is not async-signal-safe (it can allocate and takes the
stream lock), and `backtrace` is not either; so not every call of the handler
is fit for a signal handler.  Only `_exit` is. -/
theorem on_segv_calls_unsafe (w : World) (sig : Int) (si : siginfo_t) :
    (on_segv w sig si).calls.head? = some (.fprintf STDERR_FILENO (header sig si))
      ∧ handler_safe (.fprintf STDERR_FILENO (header sig si)) = false
      ∧ (on_segv w sig si).calls.map handler_safe = [false, false, false, true]
      ∧ ¬ (∀ c ∈ (on_segv w sig si).calls, handler_safe c = true) := by
  rw [on_segv_eq]
  refine ⟨rfl, rfl, rfl, ?_⟩
  intro h
  have h1 := h (.fprintf STDERR_FILENO (header sig si)) (by simp)
  simp [handler_safe, safety] at h1

/-! ## Life cycle -/

theorem main_sa_handler : main_sa.sa_sigaction = some on_segv := rfl

theorem on_fault_inv (m m1 : Machine) (hi : Inv m) (h : on_fault main_sa m = some m1) :
    Inv m1 ∧ (m.phase = .Triggered → m1.phase = .Terminated ∧ m1.entries = m.entries) := by
  have hnd : (4 : Nat) &&& 1073741824 = 0 := by decide
  obtain ⟨phase, blocked, armed, entries⟩ := m
  cases phase <;> simp only [Inv] at hi
  · simp only [on_fault, Option.some.injEq] at h
    subst h
    simp [Inv, hi]
  · simp only [on_fault] at h
    split_ifs at h with hb
    · simp only [Option.some.injEq] at h
      subst h
      simp [Inv, hi]
    · simp only [Option.some.injEq] at h
      subst h
      simp [Inv, enter, hi, handler_mask, main_sa, SA_SIGINFO, SA_NODEFER, hnd]
  · simp only [on_fault] at h
    rw [if_pos (Or.inl hi.2)] at h
    simp only [Option.some.injEq] at h
    subst h
    simp [Inv, hi.1]
  · simp [on_fault] at h

theorem step_inv (w : World) (si : siginfo_t) (m m1 : Machine) (e : Event) (hi : Inv m)
    (h : step w si main_sa m e = some m1) :
    Inv m1 ∧ (m.phase = .Triggered → m1.phase = .Terminated ∧ m1.entries = m.entries) := by
  cases e with
  | register =>
    simp only [step] at h
    split_ifs at h with hp hr
    · simp only [Option.some.injEq] at h
      subst h
      simp only [Inv, hp] at hi
      simp [Inv, hi, hp]
    · simp only [Option.some.injEq] at h
      subst h
      exact ⟨hi, by simp [hp]⟩
  | fault => exact on_fault_inv m m1 hi h
  | handler_done =>
    simp only [step, main_sa_handler, on_segv_eq] at h
    split_ifs at h with hp
    simp only [Option.some.injEq] at h
    subst h
    simp only [Inv, hp] at hi
    simp [Inv, hi.1]

theorem run_inv (w : World) (si : siginfo_t) (es : List Event) :
    ∀ (m m1 : Machine), Inv m → run w si main_sa m es = some m1 → Inv m1 := by
  induction es with
  | nil => intro m m1 hi h; simp only [run, Option.some.injEq] at h; exact h ▸ hi
  | cons e es ih =>
    intro m m1 hi h
    simp only [run] at h
    cases hs : step w si main_sa m e with
    | none => simp [hs] at h
    | some m2 =>
      rw [hs] at h
      exact ih m2 m1 (step_inv w si m m2 e hi hs).1 h

/-- C10: the registration `main` makes has flags `SA_SIGINFO` only (so
`SA_NODEFER` is off) and an empty mask; in every state `m` the life cycle can
reach from the start, the handler has been entered at most once, SIGSEGV is
blocked while the handler runs, and every step out of `Triggered` (a fault
inside the handler, or the handler reaching its end) leads to `Terminated`,
never back to `Installed` or into `Triggered` again. -/
theorem triggered_at_most_once (w : World) (si : siginfo_t) (es : List Event) (m : Machine)
    (h : run w si main_sa Machine.init es = some m) :
    main_sa.sa_flags = SA_SIGINFO ∧ main_sa.sa_mask = []
      ∧ main_sa.sa_flags &&& SA_NODEFER = 0
      ∧ m.entries ≤ 1
      ∧ (m.phase = .Triggered → SIGSEGV ∈ m.blocked ∧ m.entries = 1)
      ∧ (∀ e m1, m.phase = .Triggered → step w si main_sa m e = some m1 →
            m1.phase = .Terminated ∧ m1.phase ≠ .Installed ∧ m1.entries = m.entries) := by
  have hinit : Inv Machine.init := by simp [Inv, Machine.init]
  have hi : Inv m := run_inv w si es Machine.init m hinit h
  refine ⟨rfl, rfl, by decide, ?_, ?_, ?_⟩
  · obtain ⟨phase, blocked, armed, entries⟩ := m
    cases phase <;> simp only [Inv] at hi <;> show entries ≤ 1 <;> omega
  · intro hp
    simp only [Inv, hp] at hi
    exact ⟨hi.2, hi.1⟩
  · intro e m1 hp hs
    have ht := (step_inv w si m m1 e hi hs).2 hp
    exact ⟨ht.1, by simp [ht.1], ht.2⟩

/-- C10 on a run: registration, the fault in `main`, then a second fault
inside the handler; the handler was entered once and the process is over. -/
theorem fault_inside_handler_run :
    run sampleWorld { si_addr := 0 } main_sa Machine.init [.register, .fault]
        = some { phase := .Triggered, blocked := [11], armed := true, entries := 1 }
      ∧ (1 : Nat) ≤ 1
      ∧ step sampleWorld { si_addr := 0 } main_sa
          { phase := .Triggered, blocked := [11], armed := true, entries := 1 } .fault
        = some { phase := .Terminated, blocked := [11], armed := true, entries := 1 } :=
  ⟨by decide,
   (triggered_at_most_once sampleWorld { si_addr := 0 } [.register, .fault]
      { phase := .Triggered, blocked := [11], armed := true, entries := 1 } (by decide)).2.2.2.1,
   by decide⟩

/-- For contrast: had the registration set `SA_NODEFER`, a fault inside the
handler would enter the handler a second time. -/
theorem nodefer_would_recurse :
    run sampleWorld { si_addr := 0 } { main_sa with sa_flags := SA_SIGINFO ||| SA_NODEFER }
        Machine.init [.register, .fault, .fault]
      = some { phase := .Triggered, blocked := [], armed := true, entries := 2 } := by
  decide

end NullWrite
